import Mathlib

/-!
Verification development for the dialog stacking and async-prompt subsystem of
the opentui-ui repository.

The embedding follows the source files:
  packages/dialog/src/index.ts       (class DialogManager)
  packages/dialog/src/types.ts       (Dialog, DialogToClose, DialogUpdated,
                                      isDialogToClose, isDialogUpdated)
  the current DialogContainerRenderable (subscribe, handleKeyboard,
                                      handleBackdropClick)

Modelling conventions:
  - All machine state the manager mutates is carried in a ManagerState record;
    every TS method becomes a pure function from state to state (plus result).
  - Callbacks (onOpen, onClose, onBackdropClick) are opaque user functions in
    TS; they are modelled by numeric tags, and firing a callback appends its
    tag to an observation log.  The one callback whose body belongs to the
    manager itself - the onClose wrapper installed by showAsyncDialog, which
    calls the safe-resolve closure - is modelled structurally (CloseCb.asyncCb)
    and executed exactly as the source does.
  - A JS promise created by showAsyncDialog is modelled by the list of values
    passed to its underlying resolve function; the closure flag named resolved
    in the source is true exactly when that list is nonempty.  The promise
    takes the first value of the list, so resolved exactly once with v means
    the list equals [v].
  - Optional object properties whose value may be undefined are modelled as
    Option; a property explicitly set to undefined is identified with an
    absent property, which is faithful because every read in the source uses
    the ?? operator or an optional call.
  - publish delivers an event to every subscriber; the model records the
    ordered list of published events (the subscriber set itself carries no
    claim-relevant state).
-/

/-- DialogId = string | number (types.ts).  Equality is exact kind and value,
matching strict equality in the source. -/
inductive DialogId where
  | str (s : String)
  | num (n : Nat)
deriving DecidableEq, Repr

/-- Values an async dialog promise can resolve with: booleans for confirm,
strings/numbers standing for choice keys and prompt results, vNone for the
JS value undefined, vUnit for void (alert). -/
inductive DialogValue where
  | vBool (b : Bool)
  | vStr (s : String)
  | vNat (n : Nat)
  | vNone
  | vUnit
deriving DecidableEq, Repr

/-- An onClose callback.  user is an opaque caller-supplied function (tagged);
asyncCb is the wrapper installed by DialogManager.showAsyncDialog: it first
calls the caller's own onClose (if any) and then the safe-resolve closure with
fallback ?? defaultDismissValue, where the closure resolves the promise keyed
by promiseId and then calls close(promiseId). -/
inductive CloseCb where
  | user (tag : Nat)
  | asyncCb (userTag : Option Nat) (fallback : Option DialogValue)
      (defaultVal : DialogValue) (promiseId : DialogId)
deriving DecidableEq, Repr

/-- A dialog record in the manager's stack (interface Dialog in types.ts).
Presentation fields (size, style, backdrop colors) are opaque to every
operation the claims concern and are omitted; content is the opaque factory,
kept as a tag. -/
structure Dialog where
  id : DialogId
  content : Nat
  closeOnEscape : Option Bool := none
  closeOnClickOutside : Option Bool := none
  onOpen : Option Nat := none
  onClose : Option CloseCb := none
  onBackdropClick : Option Nat := none
deriving DecidableEq, Repr

/-- The content property of DialogShowOptions before validation: missing,
present but not a function, or a valid factory. -/
inductive ContentField where
  | missing
  | notFunction
  | factory (tag : Nat)
deriving DecidableEq, Repr

/-- DialogShowOptions (types.ts): everything of Dialog with id optional and
content unvalidated. -/
structure ShowOptions where
  id : Option DialogId := none
  content : ContentField
  closeOnEscape : Option Bool := none
  closeOnClickOutside : Option Bool := none
  onOpen : Option Nat := none
  onClose : Option CloseCb := none
  onBackdropClick : Option Nat := none
deriving DecidableEq, Repr

/-- The update payload of DialogManager.updateDialog: DialogShowOptions
without content and id. -/
structure UpdateOpts where
  closeOnEscape : Option Bool := none
  closeOnClickOutside : Option Bool := none
  onOpen : Option Nat := none
  onClose : Option CloseCb := none
  onBackdropClick : Option Nat := none
deriving DecidableEq, Repr

/-- A renderable handle as far as focus handling needs it: an identity and the
isDestroyed flag (ctx.currentFocusedRenderable, savedFocus). -/
structure Focusable where
  fid : Nat
  isDestroyed : Bool
deriving DecidableEq, Repr

/-- Observable focus effects: savedFocus?.blur() and savedFocus.focus(). -/
inductive FocusAction where
  | blurred (n : Nat)
  | focused (n : Nat)
deriving DecidableEq, Repr

/-- The union Dialog | DialogToClose | DialogUpdated delivered to subscribers.
dialogEv carries a full Dialog object (published by addDialog and by the
update-in-place branch of show); closeEv is the object with close: true;
updatedEv is the object with updated: true (published by updateDialog). -/
inductive PublishedEvent where
  | dialogEv (d : Dialog)
  | closeEv (i : DialogId)
  | updatedEv (i : DialogId)
deriving DecidableEq, Repr

/-- isDialogToClose (types.ts): the value has a close property equal to true.
A plain Dialog object and a DialogUpdated object have no such property. -/
def isDialogToClose : PublishedEvent → Bool
  | .closeEv _ => true
  | _ => false

/-- isDialogUpdated (types.ts): the value has an updated property equal to
true.  A plain Dialog object and a DialogToClose object have no such
property. -/
def isDialogUpdated : PublishedEvent → Bool
  | .updatedEv _ => true
  | _ => false

/-- The full private state of one DialogManager instance, plus the
observation logs for callback firing, publishing and focus effects.
pendingRestore models whether focusRestoreTimeout is set; the timeout body is
the separate step fireRestoreTimer. -/
structure ManagerState where
  dialogs : List Dialog
  idCounter : Nat
  savedFocus : Option Focusable
  pendingRestore : Bool
  destroyed : Bool
  contextDialogs : List (String × Nat)
  promises : List (DialogId × List DialogValue)
  published : List PublishedEvent
  closeLog : List Nat
  openLog : List Nat
  focusLog : List FocusAction
deriving DecidableEq, Repr

/-- A fresh manager (constructor): empty stack, idCounter = 1. -/
def initState : ManagerState :=
  { dialogs := [], idCounter := 1, savedFocus := none, pendingRestore := false,
    destroyed := false, contextDialogs := [], promises := [], published := [],
    closeLog := [], openLog := [], focusLog := [] }

/-! ### Association-list helpers
These mirror findIndex-and-splice on the dialogs array and the per-closure
promise bookkeeping. -/

/-- First dialog with the given id (dialogs.findIndex, read). -/
def findById : List Dialog → DialogId → Option Dialog
  | [], _ => none
  | d :: rest, i => if d.id = i then some d else findById rest i

/-- Replace the first dialog with the given id (the slice/splice pattern of
show's update branch and of updateDialog): same position, rest untouched. -/
def replaceFirstById : List Dialog → DialogId → Dialog → List Dialog
  | [], _, _ => []
  | d :: rest, i, newD =>
      if d.id = i then newD :: rest else d :: replaceFirstById rest i newD

/-- Remove the first dialog with the given id, returning it and the remaining
stack in order (findIndex followed by the two slices in close). -/
def extractById : List Dialog → DialogId → Option (Dialog × List Dialog)
  | [], _ => none
  | d :: rest, i =>
      if d.id = i then some (d, rest)
      else (extractById rest i).map (fun p => (p.1, d :: p.2))

/-- Lookup in an association list (Map.get). -/
def lookupAssoc {α : Type} : List (DialogId × α) → DialogId → Option α
  | [], _ => none
  | (k, v) :: rest, i => if k = i then some v else lookupAssoc rest i

/-- Lookup for the context-dialog registry (Map.get with string keys). -/
def lookupCtx : List (String × Nat) → String → Option Nat
  | [], _ => none
  | (k, v) :: rest, n => if k = n then some v else lookupCtx rest n

/-- Map.set for the context-dialog registry: replace in place if the key
exists, else append. -/
def setCtx : List (String × Nat) → String → Nat → List (String × Nat)
  | [], n, t => [(n, t)]
  | (k, v) :: rest, n, t =>
      if k = n then (k, t) :: rest else (k, v) :: setCtx rest n t

/-- Record one call of a promise's underlying resolve function: append the
value to the entry with the given key (other entries untouched). -/
def appendRes (l : List (DialogId × List DialogValue)) (i : DialogId)
    (v : DialogValue) : List (DialogId × List DialogValue) :=
  l.map (fun p => if p.1 = i then (p.1, p.2 ++ [v]) else p)

/-- The list of values the promise keyed by i was resolved with (empty while
pending). -/
def promiseResolutions (s : ManagerState) (i : DialogId) : List DialogValue :=
  (lookupAssoc s.promises i).getD []

/-! ### Focus handling (saveFocus / cancelPendingFocusRestore / restoreFocus
and the deferred timeout body), from manager lines 150-182. -/

/-- cancelPendingFocusRestore: clearTimeout and drop the handle. -/
def cancelPendingRestore (s : ManagerState) : ManagerState :=
  { s with pendingRestore := false }

/-- saveFocus: cancel a pending restore, remember the currently focused
renderable, and blur it (synchronously). -/
def saveFocus (s : ManagerState) (cur : Option Focusable) : ManagerState :=
  let s := cancelPendingRestore s
  match cur with
  | some f =>
      { s with savedFocus := some f, focusLog := s.focusLog ++ [.blurred f.fid] }
  | none => { s with savedFocus := none }

/-- restoreFocus: cancel a pending restore; if the saved handle is alive,
schedule the deferred restoration (setTimeout), else clear the slot.  No
focus() call happens here. -/
def restoreFocusStep (s : ManagerState) : ManagerState :=
  let s := cancelPendingRestore s
  match s.savedFocus with
  | some f =>
      if f.isDestroyed then { s with savedFocus := none }
      else { s with pendingRestore := true }
  | none => { s with savedFocus := none }

/-- The body of the focus-restore timeout when it fires: focus the saved
handle provided the manager is not destroyed and the handle is alive, then
clear the slot and the handle.  A cancelled timeout (pendingRestore = false)
never runs this. -/
def fireRestoreTimer (s : ManagerState) : ManagerState :=
  if s.pendingRestore then
    let s' : ManagerState :=
      match s.savedFocus with
      | some f =>
          if !s.destroyed && !f.isDestroyed then
            { s with focusLog := s.focusLog ++ [.focused f.fid] }
          else s
      | none => s
    { s' with savedFocus := none, pendingRestore := false }
  else s

/-! ### publish / addDialog / show (manager lines 192-284) -/

/-- publish: deliver to every subscriber (recorded as the event log). -/
def publish (s : ManagerState) (e : PublishedEvent) : ManagerState :=
  { s with published := s.published ++ [e] }

/-- Shallow merge of an existing record with new show options and the resolved
id: spread of existing then options then id.  content is a required property
of the options so it always overwrites. -/
def mergeDialog (existing : Dialog) (o : ShowOptions) (i : DialogId)
    (ctag : Nat) : Dialog :=
  { id := i
    content := ctag
    closeOnEscape := o.closeOnEscape <|> existing.closeOnEscape
    closeOnClickOutside := o.closeOnClickOutside <|> existing.closeOnClickOutside
    onOpen := o.onOpen <|> existing.onOpen
    onClose := o.onClose <|> existing.onClose
    onBackdropClick := o.onBackdropClick <|> existing.onBackdropClick }

/-- The dialog record built from the options in the add branch of show
(spread of options then id). -/
def dialogOfOptions (o : ShowOptions) (i : DialogId) (ctag : Nat) : Dialog :=
  { id := i
    content := ctag
    closeOnEscape := o.closeOnEscape
    closeOnClickOutside := o.closeOnClickOutside
    onOpen := o.onOpen
    onClose := o.onClose
    onBackdropClick := o.onBackdropClick }

/-- Diagnostic message of the destroyed guard in show. -/
def showDestroyedMsg : String :=
  "Cannot show dialog: DialogManager has been destroyed."

/-- DialogManager.show.  Throws (Except.error) when destroyed or when content
is missing or not a function; otherwise resolves the id (caller-supplied or
idCounter incremented), and either updates an existing record in place
(publishing the merged Dialog object) or saves focus when the stack was
empty, appends the new record, publishes it and fires onOpen. -/
def showDialog (s : ManagerState) (cur : Option Focusable) (o : ShowOptions) :
    Except String (ManagerState × DialogId) :=
  if s.destroyed then .error showDestroyedMsg
  else
    match o.content with
    | .missing => .error "Missing required 'content' property."
    | .notFunction => .error "Invalid 'content' type: expected function."
    | .factory ctag =>
      let (i, s) :=
        match o.id with
        | some i => (i, s)
        | none => (DialogId.num s.idCounter, { s with idCounter := s.idCounter + 1 })
      match findById s.dialogs i with
      | some existing =>
          let upd := mergeDialog existing o i ctag
          let s := { s with dialogs := replaceFirstById s.dialogs i upd }
          .ok (publish s (.dialogEv upd), i)
      | none =>
          let s := if s.dialogs.isEmpty then saveFocus s cur else s
          let d := dialogOfOptions o i ctag
          let s := publish { s with dialogs := s.dialogs ++ [d] } (.dialogEv d)
          let s := { s with openLog := s.openLog ++ d.onOpen.toList }
          .ok (s, i)

/-- Total wrapper around show: the state after the call, unchanged if show
threw. -/
def showState (s : ManagerState) (cur : Option Focusable) (o : ShowOptions) :
    ManagerState :=
  match showDialog s cur o with
  | .ok (s', _) => s'
  | .error _ => s

theorem extractById_length_lt : ∀ {l : List Dialog} {i : DialogId} {d : Dialog}
    {rest : List Dialog}, extractById l i = some (d, rest) →
    rest.length < l.length := by
  intro l
  induction l with
  | nil => intro i d rest h; simp [extractById] at h
  | cons x xs ih =>
    intro i d rest h
    by_cases hx : x.id = i
    · rw [extractById, if_pos hx] at h
      simp only [Option.some.injEq, Prod.mk.injEq] at h
      obtain ⟨-, h2⟩ := h
      rw [← h2]
      simp
    · rw [extractById, if_neg hx] at h
      cases he : extractById xs i with
      | none => rw [he] at h; simp at h
      | some p =>
        rw [he] at h
        simp only [Option.map_some', Option.some.injEq, Prod.mk.injEq] at h
        obtain ⟨-, h2⟩ := h
        have hlt := ih (show extractById xs i = some (p.1, p.2) by rw [he])
        rw [← h2]
        simpa using Nat.succ_lt_succ hlt

/-- DialogManager.close (lines 287-323).  Resolves the target (given id, or
the topmost record), no-op returning none if absent.  Removes the record,
publishes the close event, fires its onClose, and if the stack became empty
schedules focus restoration.  The asyncCb branch is the safe-resolve closure
of showAsyncDialog: if the promise is still pending it resolves it with
fallback ?? defaultDismissValue and then calls close(promiseId) again, which
terminates because the record was already removed. -/
def close (s : ManagerState) (oid : Option DialogId) :
    ManagerState × Option DialogId :=
  let target? : Option DialogId :=
    match oid with
    | some i => some i
    | none => s.dialogs.getLast?.map (·.id)
  match target? with
  | none => (s, none)
  | some t =>
    match h : extractById s.dialogs t with
    | none => (s, none)
    | some (d, rest) =>
      let s1 : ManagerState :=
        { s with dialogs := rest, published := s.published ++ [.closeEv t] }
      let s2 : ManagerState :=
        match d.onClose with
        | none => s1
        | some (.user tag) => { s1 with closeLog := s1.closeLog ++ [tag] }
        | some (.asyncCb ut fb dv pid) =>
          let s1b : ManagerState := { s1 with closeLog := s1.closeLog ++ ut.toList }
          match lookupAssoc s1b.promises pid with
          | some [] =>
              (close { s1b with promises := appendRes s1b.promises pid (fb.getD dv) }
                (some pid)).1
          | _ => s1b
      let s3 := if s2.dialogs.isEmpty then restoreFocusStep s2 else s2
      (s3, some t)
termination_by s.dialogs.length
decreasing_by
  exact extractById_length_lt h

/-- The safe-resolve closure as invoked from dialog content (ctx.resolve or
ctx.dismiss): if the promise already resolved, do nothing; else resolve it
with the value and close the dialog. -/
def safeResolve (s : ManagerState) (pid : DialogId) (v : DialogValue) :
    ManagerState :=
  match lookupAssoc s.promises pid with
  | some [] => (close { s with promises := appendRes s.promises pid v } (some pid)).1
  | _ => s

/-- DialogManager.closeAll: snapshot the stack, reverse it, close each by
id. -/
def closeMany (s : ManagerState) (ids : List DialogId) : ManagerState :=
  ids.foldl (fun s i => (close s (some i)).1) s

def closeAll (s : ManagerState) : ManagerState :=
  closeMany s (s.dialogs.reverse.map (·.id))

/-- DialogManager.replace: closeAll then show. -/
def replaceOp (s : ManagerState) (cur : Option Focusable) (o : ShowOptions) :
    ManagerState :=
  showState (closeAll s) cur o

/-- DialogManager.getDialogs. -/
def getDialogs (s : ManagerState) : List Dialog := s.dialogs

/-- DialogManager.getTopDialog. -/
def getTopDialog (s : ManagerState) : Option Dialog := s.dialogs.getLast?

/-- DialogManager.isOpen. -/
def isOpen (s : ManagerState) : Bool := !s.dialogs.isEmpty

/-- DialogManager.updateDialog (lines 380-412): merge the partial options
into the existing record in place, publish the DialogUpdated event, return
whether the target existed. -/
def updateDialog (s : ManagerState) (i : DialogId) (u : UpdateOpts) :
    ManagerState × Bool :=
  match findById s.dialogs i with
  | none => (s, false)
  | some d =>
      let d' : Dialog :=
        { d with
          closeOnEscape := u.closeOnEscape <|> d.closeOnEscape
          closeOnClickOutside := u.closeOnClickOutside <|> d.closeOnClickOutside
          onOpen := u.onOpen <|> d.onOpen
          onClose := u.onClose <|> d.onClose
          onBackdropClick := u.onBackdropClick <|> d.onBackdropClick }
      let s := { s with dialogs := replaceFirstById s.dialogs i d' }
      (publish s (.updatedEv i), true)

/-- DialogManager.registerContextDialog: store the factory by name. -/
def registerContextDialog (s : ManagerState) (name : String) (ftag : Nat) :
    ManagerState :=
  { s with contextDialogs := setCtx s.contextDialogs name ftag }

/-- DialogManager.openContextDialog: look the factory up (throwing when it is
not registered), pre-allocate an id from the counter, and show with that id
and a content closure built over the factory.  When the inner show throws
(destroyed manager) the Except discards the counter bump that the source
performs before the throw; no operation observes the counter of a destroyed
manager, so this is invisible to every property proved here. -/
def openContextDialog (s : ManagerState) (cur : Option Focusable)
    (name : String) (o : UpdateOpts) :
    Except String (ManagerState × DialogId) :=
  match lookupCtx s.contextDialogs name with
  | none => .error "Context dialog is not registered."
  | some ftag =>
      let i := DialogId.num s.idCounter
      let s := { s with idCounter := s.idCounter + 1 }
      showDialog s cur
        { id := some i, content := .factory ftag,
          closeOnEscape := o.closeOnEscape,
          closeOnClickOutside := o.closeOnClickOutside,
          onOpen := o.onOpen, onClose := o.onClose,
          onBackdropClick := o.onBackdropClick }

/-! ### Async prompt protocol (showAsyncDialog and the four helpers,
manager lines 521-774) -/

/-- Options common to the async helpers (AsyncDialogOptions plus the content
factory). -/
structure AsyncOpts where
  contentTag : Nat
  closeOnEscape : Option Bool := none
  closeOnClickOutside : Option Bool := none
  onOpen : Option Nat := none
  onCloseTag : Option Nat := none
  onBackdropClick : Option Nat := none
deriving DecidableEq, Repr

/-- DialogManager.showAsyncDialog: pre-allocate the dialog id, create the
pending promise (the safe-resolve flag starts false), and show the dialog
with an onClose wrapper that calls the caller's onClose and then safe-resolve
with fallback ?? defaultDismissValue.  If show throws (destroyed manager) the
promise executor throws and the promise rejects: the state keeps the
never-resolved promise entry. -/
def showAsyncDialog (s : ManagerState) (cur : Option Focusable)
    (base : AsyncOpts) (fallback : Option DialogValue)
    (defaultDismiss : DialogValue) : ManagerState × DialogId :=
  let did := DialogId.num s.idCounter
  let s := { s with idCounter := s.idCounter + 1,
                    promises := s.promises ++ [(did, [])] }
  match showDialog s cur
      { id := some did, content := .factory base.contentTag,
        closeOnEscape := base.closeOnEscape,
        closeOnClickOutside := base.closeOnClickOutside,
        onOpen := base.onOpen,
        onClose := some (.asyncCb base.onCloseTag fallback defaultDismiss did),
        onBackdropClick := base.onBackdropClick } with
  | .ok (s', _) => (s', did)
  | .error _ => (s, did)

structure ConfirmOpts extends AsyncOpts where
  fallback : Option Bool := none
deriving DecidableEq, Repr

structure PromptOpts extends AsyncOpts where
  fallback : Option DialogValue := none
deriving DecidableEq, Repr

structure ChoiceOpts extends AsyncOpts where
  fallback : Option DialogValue := none
deriving DecidableEq, Repr

structure AlertOpts extends AsyncOpts
deriving DecidableEq, Repr

/-- DialogManager.prompt: default dismiss value undefined. -/
def promptDialog (s : ManagerState) (cur : Option Focusable) (o : PromptOpts) :
    ManagerState × DialogId :=
  showAsyncDialog s cur o.toAsyncOpts o.fallback .vNone

/-- DialogManager.confirm: default dismiss value false. -/
def confirmDialog (s : ManagerState) (cur : Option Focusable) (o : ConfirmOpts) :
    ManagerState × DialogId :=
  showAsyncDialog s cur o.toAsyncOpts (o.fallback.map .vBool) (.vBool false)

/-- DialogManager.alert: no fallback, default dismiss value void. -/
def alertDialog (s : ManagerState) (cur : Option Focusable) (o : AlertOpts) :
    ManagerState × DialogId :=
  showAsyncDialog s cur o.toAsyncOpts none .vUnit

/-- DialogManager.choice: default dismiss value undefined. -/
def choiceDialog (s : ManagerState) (cur : Option Focusable) (o : ChoiceOpts) :
    ManagerState × DialogId :=
  showAsyncDialog s cur o.toAsyncOpts o.fallback .vNone

/-- DialogManager.destroy (lines 776-789): idempotent; sets the flag, cancels
a pending focus restore, clears the saved focus, the subscribers and the
stack. -/
def destroy (s : ManagerState) : ManagerState :=
  if s.destroyed then s
  else { s with destroyed := true, pendingRestore := false,
                savedFocus := none, dialogs := [] }

/-! ### Dialog container (the current DialogContainerRenderable: subscribe,
getTopDialogRenderable, handleKeyboard, handleBackdropClick).  The container
holds one DialogRenderable per stack entry in a JS Map keyed by id, which
preserves insertion order; each renderable keeps the Dialog record it was
created from. -/

/-- Container-level defaults (DialogContainerOptions fields the input routing
reads). -/
structure ContainerOpts where
  closeOnEscape : Option Bool := none
  closeOnClickOutside : Option Bool := none
deriving DecidableEq, Repr

/-- The container's own state: the insertion-ordered renderable map (entries
pair the map key with the Dialog snapshot the renderable holds), its options
and the destroyed flag. -/
structure ContainerState where
  entries : List (DialogId × Dialog)
  copts : ContainerOpts
  cdestroyed : Bool := false
deriving DecidableEq, Repr

/-- Map.delete on the renderable map. -/
def removeEntry : List (DialogId × Dialog) → DialogId → List (DialogId × Dialog)
  | [], _ => []
  | (k, v) :: rest, i =>
      if k = i then rest else (k, v) :: removeEntry rest i

/-- Map.set on an existing key keeps the original insertion position. -/
def setEntryKeepPos : List (DialogId × Dialog) → DialogId → Dialog →
    List (DialogId × Dialog)
  | [], _, _ => []
  | (k, v) :: rest, i, d =>
      if k = i then (k, d) :: rest else (k, v) :: setEntryKeepPos rest i d

/-- getTopDialogRenderable: the last key in insertion order. -/
def topEntry (c : ContainerState) : Option (DialogId × Dialog) :=
  c.entries.getLast?

/-- The subscription handler of the container (subscribe): branch on the
event kind.  close events tear the renderable down; updated events recreate
the renderable from the fresh record looked up in the manager; a full Dialog
event mounts a renderable, tearing down a pre-existing one for the same id
first (delete then set, so the entry moves to the end of the map). -/
def containerOnEvent (mgrDialogs : List Dialog) (c : ContainerState)
    (e : PublishedEvent) : ContainerState :=
  if c.cdestroyed then c
  else
    match e with
    | .closeEv i => { c with entries := removeEntry c.entries i }
    | .updatedEv i =>
        match findById mgrDialogs i, lookupAssoc c.entries i with
        | some d, some _ => { c with entries := setEntryKeepPos c.entries i d }
        | _, _ => c
    | .dialogEv d =>
        let c :=
          if (lookupAssoc c.entries d.id).isSome then
            { c with entries := removeEntry c.entries d.id }
          else c
        { c with entries := c.entries ++ [(d.id, d)] }

/-- A manager wired to its container through the subscription, plus the log
of onBackdropClick callback invocations performed by the container. -/
structure DialogSystem where
  mgr : ManagerState
  cont : ContainerState
  clickLog : List Nat := []
deriving DecidableEq, Repr

/-- Run a manager close and deliver every event it published to the
container's subscription handler. -/
def sysClose (sys : DialogSystem) (t : Option DialogId) : DialogSystem :=
  let m' := (close sys.mgr t).1
  let delta := m'.published.drop sys.mgr.published.length
  { sys with
    mgr := m'
    cont := delta.foldl (containerOnEvent m'.dialogs) sys.cont }

/-- DialogContainerRenderable.handleKeyboard: on escape with a non-empty
renderable map, read the topmost record's closeOnEscape with the container
default as fallback; if that is false leave the event unhandled, else consume
the event (preventDefault, returning true) and close the topmost dialog
through the manager. -/
def handleKeyboard (sys : DialogSystem) (key : String) :
    DialogSystem × Bool :=
  if key = "escape" && decide (0 < sys.cont.entries.length) then
    match topEntry sys.cont with
    | some (i, d) =>
        if (d.closeOnEscape <|> sys.cont.copts.closeOnEscape) = some false then
          (sys, false)
        else
          (sysClose sys (some i), true)
    | none => (sys, false)
  else (sys, false)

/-- DialogContainerRenderable.handleBackdropClick: call the topmost record's
onBackdropClick callback first, then close through the manager exactly when
the record's closeOnClickOutside, falling back to the container default, is
true. -/
def handleBackdropClick (sys : DialogSystem) : DialogSystem :=
  match topEntry sys.cont with
  | none => sys
  | some (i, d) =>
      let sys := { sys with clickLog := sys.clickLog ++ d.onBackdropClick.toList }
      if (d.closeOnClickOutside <|> sys.cont.copts.closeOnClickOutside) = some true
      then sysClose sys (some i)
      else sys

/-- Whether a content field is a valid factory. -/
def contentOk : ContentField → Bool
  | .factory _ => true
  | _ => false

/-- One external call to the manager API, for reasoning about whole runs. -/
inductive MgrOp where
  | opShow (cur : Option Focusable) (o : ShowOptions)
  | opClose (t : Option DialogId)
  | opCloseAll
  | opReplace (cur : Option Focusable) (o : ShowOptions)
  | opUpdate (i : DialogId) (u : UpdateOpts)
  | opRegister (name : String) (ftag : Nat)
  | opOpenContext (cur : Option Focusable) (name : String) (o : UpdateOpts)
  | opPrompt (cur : Option Focusable) (o : PromptOpts)
  | opConfirm (cur : Option Focusable) (o : ConfirmOpts)
  | opAlert (cur : Option Focusable) (o : AlertOpts)
  | opChoice (cur : Option Focusable) (o : ChoiceOpts)
  | opResolve (did : DialogId) (v : DialogValue)
  | opFireRestore
  | opDestroy
deriving DecidableEq, Repr

/-- The state after one API call (a throwing call leaves the state as the
model keeps it). -/
def stepOp (s : ManagerState) : MgrOp → ManagerState
  | .opShow cur o => showState s cur o
  | .opClose t => (close s t).1
  | .opCloseAll => closeAll s
  | .opReplace cur o => replaceOp s cur o
  | .opUpdate i u => (updateDialog s i u).1
  | .opRegister name ftag => registerContextDialog s name ftag
  | .opOpenContext cur name o =>
      match openContextDialog s cur name o with
      | .ok (s', _) => s'
      | .error _ => s
  | .opPrompt cur o => (promptDialog s cur o).1
  | .opConfirm cur o => (confirmDialog s cur o).1
  | .opAlert cur o => (alertDialog s cur o).1
  | .opChoice cur o => (choiceDialog s cur o).1
  | .opResolve did v => safeResolve s did v
  | .opFireRestore => fireRestoreTimer s
  | .opDestroy => destroy s

/-- Whether the call hands out an auto-generated id: show (or replace)
without a caller id, openContextDialog on a registered name, and every
async-prompt helper. -/
def autoGenCond (s : ManagerState) : MgrOp → Bool
  | .opShow _ o => !s.destroyed && contentOk o.content && o.id.isNone
  | .opReplace _ o => !s.destroyed && contentOk o.content && o.id.isNone
  | .opOpenContext _ name _ =>
      (lookupCtx s.contextDialogs name).isSome && !s.destroyed
  | .opPrompt _ _ => true
  | .opConfirm _ _ => true
  | .opAlert _ _ => true
  | .opChoice _ _ => true
  | _ => false

/-- The auto-generated ids a call hands out (zero or one, always the counter
value at call time). -/
def autoGenIds (s : ManagerState) (op : MgrOp) : List Nat :=
  if autoGenCond s op then [s.idCounter] else []

/-- All auto-generated ids of a run, in order. -/
def runAuto : ManagerState → List MgrOp → List Nat
  | _, [] => []
  | s, op :: ops => autoGenIds s op ++ runAuto (stepOp s op) ops

/-- The tag of a user onClose callback (0 when the callback is absent or is
the async wrapper); used to express the firing order of closeAll. -/
def userTagOf (d : Dialog) : Nat :=
  match d.onClose with
  | some (.user t) => t
  | _ => 0

/-- The dialog record that showAsyncDialog passes to show: the async options
plus the pre-allocated id and the safe-resolve onClose wrapper. -/
def asyncDialogRecord (base : AsyncOpts) (fallback : Option DialogValue)
    (defaultDismiss : DialogValue) (did : DialogId) : Dialog :=
  { id := did, content := base.contentTag,
    closeOnEscape := base.closeOnEscape,
    closeOnClickOutside := base.closeOnClickOutside,
    onOpen := base.onOpen,
    onClose := some (.asyncCb base.onCloseTag fallback defaultDismiss did),
    onBackdropClick := base.onBackdropClick }

/-! ### Concrete fixtures used by witnesses and counterexamples -/

/-- show options with caller-supplied id 1 and a first content factory. -/
def c2opts1 : ShowOptions := { id := some (.num 1), content := .factory 1 }

/-- show options with the same id 1 and a second content factory. -/
def c2opts2 : ShowOptions := { id := some (.num 1), content := .factory 2 }

/-- State after the first show. -/
def c2state1 : ManagerState := showState initState none c2opts1

/-- State after showing again with the same id. -/
def c2state2 : ManagerState := showState c2state1 none c2opts2

/-- A three-dialog stack A, B, C (C topmost) with user onClose callbacks
tagged 10, 20, 30. -/
def abcState : ManagerState :=
  showState
    (showState
      (showState initState none
        { id := some (.str "A"), content := .factory 1, onClose := some (.user 10) })
      none
      { id := some (.str "B"), content := .factory 2, onClose := some (.user 20) })
    none
    { id := some (.str "C"), content := .factory 3, onClose := some (.user 30) }

/-- Fixture for the focus-discipline witness. -/
def c4show : ShowOptions := { id := some (.num 7), content := .factory 5 }

/-- One dialog open after blurring element 42. -/
def c4open : ManagerState := showState initState (some ⟨42, false⟩) c4show

/-- A one-dialog system whose container mirrors the manager; the dialog has
no overrides and an onBackdropClick callback tagged 77. -/
def c56dialog : Dialog :=
  { id := .num 1, content := 1, onBackdropClick := some 77 }

def c56sys : DialogSystem :=
  { mgr := { initState with dialogs := [c56dialog] },
    cont := { entries := [(.num 1, c56dialog)], copts := {} },
    clickLog := [] }

/-- A variant whose dialog opts in to closeOnClickOutside. -/
def c56dialogB : Dialog :=
  { id := .num 2, content := 1, closeOnClickOutside := some true,
    onBackdropClick := some 88 }

def c56sysB : DialogSystem :=
  { mgr := { initState with dialogs := [c56dialogB] },
    cont := { entries := [(.num 2, c56dialogB)], copts := {} },
    clickLog := [] }

/-- A variant whose dialog disables closeOnEscape. -/
def c56dialogC : Dialog :=
  { id := .num 3, content := 1, closeOnEscape := some false }

def c56sysC : DialogSystem :=
  { mgr := { initState with dialogs := [c56dialogC] },
    cont := { entries := [(.num 3, c56dialogC)], copts := {} },
    clickLog := [] }

/-! ### Helper lemmas -/

theorem findById_eq_none_of_not_mem {l : List Dialog} {i : DialogId}
    (h : i ∉ l.map (·.id)) : findById l i = none := by
  induction l with
  | nil => rfl
  | cons x xs ih =>
    simp only [List.map_cons, List.mem_cons, not_or] at h
    rw [findById, if_neg (fun he => h.1 he.symm)]
    exact ih h.2

theorem extractById_eq_none_of_not_mem {l : List Dialog} {i : DialogId}
    (h : i ∉ l.map (·.id)) : extractById l i = none := by
  induction l with
  | nil => rfl
  | cons x xs ih =>
    simp only [List.map_cons, List.mem_cons, not_or] at h
    rw [extractById, if_neg (fun he => h.1 he.symm)]
    rw [ih h.2]
    rfl

theorem extractById_append_last {l : List Dialog} {d : Dialog}
    (h : d.id ∉ l.map (·.id)) : extractById (l ++ [d]) d.id = some (d, l) := by
  induction l with
  | nil => simp [extractById]
  | cons x xs ih =>
    simp only [List.map_cons, List.mem_cons, not_or] at h
    rw [List.cons_append, extractById, if_neg (fun he => h.1 he.symm)]
    rw [ih h.2]
    rfl

theorem lookupAssoc_append_fresh {α : Type} {l : List (DialogId × α)}
    {i : DialogId} {v : α} (h : ∀ p ∈ l, p.1 ≠ i) :
    lookupAssoc (l ++ [(i, v)]) i = some v := by
  induction l with
  | nil => simp [lookupAssoc]
  | cons x xs ih =>
    rw [List.cons_append, lookupAssoc, if_neg (h x (by simp))]
    exact ih (fun p hp => h p (by simp [hp]))

theorem appendRes_append_fresh {l : List (DialogId × List DialogValue)}
    {i : DialogId} {vs : List DialogValue} {v : DialogValue}
    (h : ∀ p ∈ l, p.1 ≠ i) :
    appendRes (l ++ [(i, vs)]) i v = l ++ [(i, vs ++ [v])] := by
  induction l with
  | nil => simp [appendRes]
  | cons x xs ih =>
    rw [List.cons_append, appendRes, List.map_cons]
    rw [if_neg (h x (by simp))]
    have := ih (fun p hp => h p (by simp [hp]))
    rw [appendRes] at this
    rw [this]
    rfl

theorem close_not_mem {s : ManagerState} {i : DialogId}
    (h : i ∉ s.dialogs.map (·.id)) : close s (some i) = (s, none) := by
  rw [close]
  split
  · rfl
  next d rest heq =>
    rw [extractById_eq_none_of_not_mem h] at heq
    cases heq

theorem close_none_empty {s : ManagerState} (h : s.dialogs = []) :
    close s none = (s, none) := by
  rw [close]
  simp [h]

/-! ### C8: closing an absent id is a pure no-op -/

/-- C8: for every state, close on an id not in the stack returns undefined
and leaves the whole state (published events, onClose log, stack, saved
focus) unchanged; close with no argument on an empty stack likewise. -/
theorem close_absent_noop :
    (∀ (s : ManagerState) (i : DialogId), i ∉ s.dialogs.map (·.id) →
        close s (some i) = (s, none)) ∧
    (∀ s : ManagerState, s.dialogs = [] → close s none = (s, none)) :=
  ⟨fun _ _ h => close_not_mem h, fun _ h => close_none_empty h⟩

/-- Witness for C8 at a concrete state. -/
theorem close_absent_noop_witness :
    close initState (some (.num 99)) = (initState, none) ∧
    close initState none = (initState, none) :=
  ⟨close_absent_noop.1 initState (.num 99) (by decide),
   close_absent_noop.2 initState (by decide)⟩

/-! ### C10: destroy is idempotent and later operations are total -/

/-- C10: destroying a live manager empties the stack; a second destroy is a
no-op; afterwards close returns undefined, updateDialog returns false,
getDialogs is empty, isOpen is false, the pending focus restoration is
cancelled and its timer never fires, while show throws. -/
theorem destroy_idempotent_total (s : ManagerState) (hs : s.destroyed = false)
    (cur : Option Focusable) (o : ShowOptions) (i : DialogId) (u : UpdateOpts)
    (t : Option DialogId) :
    destroy (destroy s) = destroy s ∧
    (destroy s).dialogs = [] ∧
    close (destroy s) t = (destroy s, none) ∧
    updateDialog (destroy s) i u = (destroy s, false) ∧
    getDialogs (destroy s) = [] ∧
    isOpen (destroy s) = false ∧
    (destroy s).pendingRestore = false ∧
    fireRestoreTimer (destroy s) = destroy s ∧
    showDialog (destroy s) cur o = .error showDestroyedMsg := by
  have hd : destroy s = { s with destroyed := true, pendingRestore := false, savedFocus := none, dialogs := [] } := by
    rw [destroy, if_neg (by simp [hs])]
  refine ⟨?_, ?_, ?_, ?_, ?_, ?_, ?_, ?_, ?_⟩
  · rw [hd, destroy]; simp
  · rw [hd]
  · rw [hd, close.eq_def]
    cases t <;> simp [extractById]
  · rw [hd, updateDialog]
    simp [findById]
  · rw [hd, getDialogs]
  · rw [hd, isOpen]; simp
  · rw [hd]
  · rw [hd, fireRestoreTimer]; simp
  · rw [hd, showDialog]; simp

/-- Witness for C10 at a concrete state. -/
theorem destroy_idempotent_total_witness :
    destroy (destroy initState) = destroy initState ∧
    (destroy initState).dialogs = [] ∧
    close (destroy initState) none = (destroy initState, none) ∧
    updateDialog (destroy initState) (.num 1) {} = (destroy initState, false) ∧
    getDialogs (destroy initState) = [] ∧
    isOpen (destroy initState) = false ∧
    (destroy initState).pendingRestore = false ∧
    fireRestoreTimer (destroy initState) = destroy initState ∧
    showDialog (destroy initState) none { content := .factory 1 } =
      .error showDestroyedMsg :=
  destroy_idempotent_total initState (by decide) none { content := .factory 1 }
    (.num 1) {} none

/-! ### C7: closeAll fires onClose topmost-first -/

theorem restoreFocusStep_fields (s : ManagerState) :
    (restoreFocusStep s).dialogs = s.dialogs ∧
    (restoreFocusStep s).closeLog = s.closeLog ∧
    (restoreFocusStep s).published = s.published ∧
    (restoreFocusStep s).promises = s.promises ∧
    (restoreFocusStep s).idCounter = s.idCounter ∧
    (restoreFocusStep s).focusLog = s.focusLog ∧
    (restoreFocusStep s).destroyed = s.destroyed ∧
    (restoreFocusStep s).contextDialogs = s.contextDialogs ∧
    (restoreFocusStep s).openLog = s.openLog := by
  unfold restoreFocusStep cancelPendingRestore
  cases s.savedFocus with
  | none => simp
  | some f =>
    by_cases hf : f.isDestroyed <;> simp [hf]

theorem findById_some_mem {l : List Dialog} {i : DialogId} {ex : Dialog}
    (h : findById l i = some ex) : i ∈ l.map (·.id) := by
  induction l with
  | nil => cases h
  | cons x xs ih =>
    by_cases hx : x.id = i
    · simp [hx]
    · rw [findById, if_neg hx] at h
      simp [ih h]

theorem close_last_user_components {s : ManagerState} {xs : List Dialog}
    {d : Dialog} {t : Nat} (hs : s.dialogs = xs ++ [d])
    (hnm : d.id ∉ xs.map (·.id)) (hcb : d.onClose = some (.user t)) :
    (close s (some d.id)).1.dialogs = xs ∧
    (close s (some d.id)).1.closeLog = s.closeLog ++ [t] ∧
    (close s (some d.id)).1.published = s.published ++ [.closeEv d.id] := by
  have heq : extractById s.dialogs d.id = some (d, xs) := by
    rw [hs]; exact extractById_append_last hnm
  rw [close]
  split
  · next hnone => rw [heq] at hnone; cases hnone
  · next d' rest' hsome =>
    rw [heq] at hsome
    simp only [Option.some.injEq, Prod.mk.injEq] at hsome
    obtain ⟨rfl, rfl⟩ := hsome
    rw [hcb]
    dsimp only
    split
    · next hemp =>
      refine ⟨?_, ?_, ?_⟩
      · simp [(restoreFocusStep_fields _).1]
      · simp [(restoreFocusStep_fields _).2.1]
      · simp [(restoreFocusStep_fields _).2.2.1]
    · exact ⟨rfl, rfl, rfl⟩

theorem closeMany_user_rev : ∀ (l : List Dialog) (s : ManagerState),
    s.dialogs = l → (l.map (·.id)).Nodup →
    (∀ d ∈ l, ∃ t, d.onClose = some (.user t)) →
    (closeMany s (l.reverse.map (·.id))).dialogs = [] ∧
    (closeMany s (l.reverse.map (·.id))).closeLog =
      s.closeLog ++ l.reverse.map userTagOf ∧
    (closeMany s (l.reverse.map (·.id))).published =
      s.published ++ l.reverse.map (fun d => .closeEv d.id) := by
  intro l
  induction l using List.reverseRecOn with
  | nil =>
    intro s hs _ _
    simp [closeMany, hs]
  | append_singleton xs d ih =>
    intro s hs hnd hcb
    have hmap : (xs ++ [d]).map (·.id) = xs.map (·.id) ++ [d.id] := by simp
    rw [hmap] at hnd
    have hnm : d.id ∉ xs.map (·.id) := by
      have := List.disjoint_of_nodup_append hnd
      intro hmem
      exact this hmem (by simp)
    obtain ⟨t, ht⟩ := hcb d (by simp)
    have hrev : (xs ++ [d]).reverse.map (·.id) =
        d.id :: xs.reverse.map (·.id) := by simp
    rw [hrev]
    have hcm : closeMany s (d.id :: xs.reverse.map (·.id)) =
        closeMany (close s (some d.id)).1 (xs.reverse.map (·.id)) := rfl
    rw [hcm]
    obtain ⟨h1, h2, h3⟩ := close_last_user_components hs hnm ht
    obtain ⟨g1, g2, g3⟩ := ih (close s (some d.id)).1 h1
      (List.Nodup.of_append_left hnd)
      (fun d' hd' => hcb d' (by simp [hd']))
    refine ⟨g1, ?_, ?_⟩
    · rw [g2, h2]
      simp [userTagOf, ht]
    · rw [g3, h3]
      simp

/-- C7: for every stack (in particular [A, B, C] with C topmost) whose
records carry user onClose callbacks and pairwise distinct ids, closeAll
(which performs repeated close calls over the reversed snapshot) empties the
stack, fires the callbacks in exactly last-opened-first order, and publishes
one close event per record in that same order. -/
theorem closeAll_fires_onClose_topmost_first (s : ManagerState)
    (hnd : (s.dialogs.map (·.id)).Nodup)
    (hcb : ∀ d ∈ s.dialogs, ∃ t, d.onClose = some (.user t)) :
    (closeAll s).dialogs = [] ∧
    (closeAll s).closeLog = s.closeLog ++ s.dialogs.reverse.map userTagOf ∧
    (closeAll s).published =
      s.published ++ s.dialogs.reverse.map (fun d => .closeEv d.id) :=
  closeMany_user_rev s.dialogs s rfl hnd hcb

/-- Witness for C7: on the concrete stack [A, B, C] with onClose tags
10, 20, 30, closeAll fires 30, 20, 10. -/
theorem closeAll_fires_onClose_topmost_first_witness :
    (closeAll abcState).dialogs = [] ∧
    (closeAll abcState).closeLog =
      abcState.closeLog ++ abcState.dialogs.reverse.map userTagOf ∧
    (closeAll abcState).published =
      abcState.published ++
        abcState.dialogs.reverse.map (fun d => .closeEv d.id) :=
  closeAll_fires_onClose_topmost_first abcState (by decide)
    (by
      intro d hd
      have he : abcState.dialogs =
          [{ id := .str "A", content := 1, onClose := some (.user 10) },
           { id := .str "B", content := 2, onClose := some (.user 20) },
           { id := .str "C", content := 3, onClose := some (.user 30) }] := by
        decide
      rw [he] at hd
      simp only [List.mem_cons, List.not_mem_nil, or_false] at hd
      rcases hd with rfl | rfl | rfl
      · exact ⟨10, rfl⟩
      · exact ⟨20, rfl⟩
      · exact ⟨30, rfl⟩)

/-! ### C2: show with an existing id updates in place -/

theorem replaceFirstById_map_id {l : List Dialog} {i : DialogId}
    {newD : Dialog} (hn : newD.id = i) :
    (replaceFirstById l i newD).map (·.id) = l.map (·.id) := by
  induction l with
  | nil => rfl
  | cons x xs ih =>
    by_cases hx : x.id = i
    · rw [replaceFirstById, if_pos hx]
      simp [hn, hx]
    · rw [replaceFirstById, if_neg hx]
      simp [ih]

/-- C2 (amended): showing with an id already present keeps exactly one record
with that id, at its original stack position, and publishes exactly one event
for the call; but that event is the merged Dialog record itself, which
satisfies neither isDialogUpdated nor isDialogToClose - it has the same shape
as an added publish, and subscribers distinguish an update only by the
pre-existing renderable for the id. -/
theorem show_existing_id_update_in_place (s : ManagerState)
    (cur : Option Focusable) (o : ShowOptions) (i : DialogId) (ex : Dialog)
    (ctag : Nat) (hid : o.id = some i) (hc : o.content = .factory ctag)
    (hex : findById s.dialogs i = some ex)
    (hnd : (s.dialogs.map (·.id)).Nodup)
    (hdes : s.destroyed = false) :
    showDialog s cur o = .ok (showState s cur o, i) ∧
    (showState s cur o).dialogs.map (·.id) = s.dialogs.map (·.id) ∧
    ((showState s cur o).dialogs.map (·.id)).count i = 1 ∧
    (showState s cur o).published =
      s.published ++ [.dialogEv (mergeDialog ex o i ctag)] ∧
    isDialogUpdated (.dialogEv (mergeDialog ex o i ctag)) = false ∧
    isDialogToClose (.dialogEv (mergeDialog ex o i ctag)) = false := by
  have hrun : showDialog s cur o =
      .ok (publish { s with dialogs := replaceFirstById s.dialogs i (mergeDialog ex o i ctag) } (.dialogEv (mergeDialog ex o i ctag)), i) := by
    rw [showDialog]
    simp [hdes, hc, hid, hex]
  have hss : showState s cur o =
      publish { s with dialogs := replaceFirstById s.dialogs i (mergeDialog ex o i ctag) } (.dialogEv (mergeDialog ex o i ctag)) := by
    rw [showState, hrun]
  have hmap : (showState s cur o).dialogs.map (·.id) = s.dialogs.map (·.id) := by
    rw [hss]
    exact replaceFirstById_map_id rfl
  refine ⟨by rw [hrun, hss], hmap, ?_, by rw [hss]; rfl, rfl, rfl⟩
  rw [hmap]
  exact List.count_eq_one_of_mem hnd (findById_some_mem hex)

/-- Counterexample for C2 as stated: after show with id 1 and then show again
with id 1, the second call publishes exactly one event, and that event does
not satisfy isDialogUpdated (it is the merged Dialog record, not a
DialogUpdated object). -/
theorem show_existing_id_counterexample :
    c2state1.published = [.dialogEv { id := .num 1, content := 1 }] ∧
    c2state2.published =
      [.dialogEv { id := .num 1, content := 1 },
       .dialogEv { id := .num 1, content := 2 }] ∧
    c2state2.dialogs.map (·.id) = [.num 1] ∧
    isDialogUpdated (.dialogEv { id := .num 1, content := 2 }) = false := by
  decide

/-- Witness for the amended C2 at the concrete two-show run. -/
theorem show_existing_id_update_in_place_witness :
    showDialog c2state1 none c2opts2 = .ok (showState c2state1 none c2opts2, .num 1) ∧
    (showState c2state1 none c2opts2).dialogs.map (·.id) =
      c2state1.dialogs.map (·.id) ∧
    ((showState c2state1 none c2opts2).dialogs.map (·.id)).count (.num 1) = 1 ∧
    (showState c2state1 none c2opts2).published =
      c2state1.published ++
        [.dialogEv (mergeDialog { id := .num 1, content := 1 } c2opts2 (.num 1) 2)] ∧
    isDialogUpdated
      (.dialogEv (mergeDialog { id := .num 1, content := 1 } c2opts2 (.num 1) 2)) = false ∧
    isDialogToClose
      (.dialogEv (mergeDialog { id := .num 1, content := 1 } c2opts2 (.num 1) 2)) = false :=
  show_existing_id_update_in_place c2state1 none c2opts2 (.num 1)
    { id := .num 1, content := 1 } 2 (by decide) (by decide) (by decide)
    (by decide) (by decide)

/-! ### Fields close never touches (by induction over the re-entrant calls) -/

theorem ifRestore_fields (c : Prop) [Decidable c] (s' : ManagerState) :
    (if c then restoreFocusStep s' else s').idCounter = s'.idCounter ∧
    (if c then restoreFocusStep s' else s').destroyed = s'.destroyed ∧
    (if c then restoreFocusStep s' else s').contextDialogs = s'.contextDialogs ∧
    (if c then restoreFocusStep s' else s').openLog = s'.openLog ∧
    (if c then restoreFocusStep s' else s').focusLog = s'.focusLog := by
  by_cases hc : c <;>
    simp [hc, (restoreFocusStep_fields s').2.2.2.2.1,
      (restoreFocusStep_fields s').2.2.2.2.2.1,
      (restoreFocusStep_fields s').2.2.2.2.2.2.1,
      (restoreFocusStep_fields s').2.2.2.2.2.2.2.1,
      (restoreFocusStep_fields s').2.2.2.2.2.2.2.2]

theorem close_preserved_fields : ∀ (n : Nat) (s : ManagerState)
    (t : Option DialogId), s.dialogs.length ≤ n →
    (close s t).1.idCounter = s.idCounter ∧
    (close s t).1.destroyed = s.destroyed ∧
    (close s t).1.contextDialogs = s.contextDialogs ∧
    (close s t).1.openLog = s.openLog ∧
    (close s t).1.focusLog = s.focusLog := by
  intro n
  induction n with
  | zero =>
    intro s t h
    have hnil : s.dialogs = [] := List.length_eq_zero.mp (Nat.le_zero.mp h)
    cases t with
    | none => rw [close_none_empty hnil]; exact ⟨rfl, rfl, rfl, rfl, rfl⟩
    | some i =>
      rw [close_not_mem (by simp [hnil])]
      exact ⟨rfl, rfl, rfl, rfl, rfl⟩
  | succ n ih =>
    intro s t h
    rw [close.eq_def]
    dsimp only
    split
    · exact ⟨rfl, rfl, rfl, rfl, rfl⟩
    next t' htar =>
      split
      · exact ⟨rfl, rfl, rfl, rfl, rfl⟩
      next d rest hex =>
        have hlt : rest.length ≤ n := by
          have := extractById_length_lt hex
          omega
        rcases hcb : d.onClose with - | cb
        · simp only [hcb]
          exact ifRestore_fields _ _
        · cases cb with
          | user tag =>
            simp only [hcb]
            exact ifRestore_fields _ _
          | asyncCb ut fb dv pid =>
            simp only [hcb]
            cases hlk : lookupAssoc s.promises pid with
            | none =>
              simp only [hlk]
              exact ifRestore_fields _ _
            | some vs =>
              cases vs with
              | nil =>
                simp only [hlk]
                have harg := ih { dialogs := rest, idCounter := s.idCounter, savedFocus := s.savedFocus, pendingRestore := s.pendingRestore, destroyed := s.destroyed, contextDialogs := s.contextDialogs, promises := appendRes s.promises pid (fb.getD dv), published := s.published ++ [PublishedEvent.closeEv t'], closeLog := s.closeLog ++ ut.toList, openLog := s.openLog, focusLog := s.focusLog } (some pid) (by simpa using hlt)
                obtain ⟨e1, e2, e3, e4, e5⟩ := ifRestore_fields
                  ((close { dialogs := rest, idCounter := s.idCounter, savedFocus := s.savedFocus, pendingRestore := s.pendingRestore, destroyed := s.destroyed, contextDialogs := s.contextDialogs, promises := appendRes s.promises pid (fb.getD dv), published := s.published ++ [PublishedEvent.closeEv t'], closeLog := s.closeLog ++ ut.toList, openLog := s.openLog, focusLog := s.focusLog } (some pid)).1.dialogs.isEmpty = true)
                  ((close { dialogs := rest, idCounter := s.idCounter, savedFocus := s.savedFocus, pendingRestore := s.pendingRestore, destroyed := s.destroyed, contextDialogs := s.contextDialogs, promises := appendRes s.promises pid (fb.getD dv), published := s.published ++ [PublishedEvent.closeEv t'], closeLog := s.closeLog ++ ut.toList, openLog := s.openLog, focusLog := s.focusLog } (some pid)).1)
                exact ⟨e1.trans harg.1, e2.trans harg.2.1, e3.trans harg.2.2.1,
                  e4.trans harg.2.2.2.1, e5.trans harg.2.2.2.2⟩
              | cons v vs' =>
                simp only [hlk]
                exact ifRestore_fields _ _

/-! ### C4: focus save/blur is synchronous, restore is deferred -/

theorem fireRestore_focuses {s3 : ManagerState} {f : Focusable}
    (h1 : s3.pendingRestore = true) (h2 : s3.savedFocus = some f)
    (h3 : s3.destroyed = false) (h4 : f.isDestroyed = false) :
    (fireRestoreTimer s3).focusLog = s3.focusLog ++ [.focused f.fid] := by
  rw [fireRestoreTimer]
  simp [h1, h2, h3, h4]

theorem close_single_pending {s : ManagerState} {d : Dialog} {f : Focusable}
    (hs : s.dialogs = [d]) (hsf : s.savedFocus = some f)
    (hfd : f.isDestroyed = false) :
    (close s (some d.id)).1.pendingRestore = true ∧
    (close s (some d.id)).1.savedFocus = some f := by
  rw [close.eq_def]
  dsimp only
  split
  · next hex =>
    rw [hs] at hex
    simp [extractById] at hex
  next d' rest hex =>
    rw [hs] at hex
    have hdr : d = d' ∧ ([] : List Dialog) = rest := by
      simpa [extractById] using hex
    obtain ⟨rfl, hrest⟩ := hdr
    rcases hcb : d.onClose with - | cb
    · simp only [hcb, ← hrest]
      constructor <;>
        simp [restoreFocusStep, cancelPendingRestore, hsf, hfd]
    · cases cb with
      | user tag =>
        simp only [hcb, ← hrest]
        constructor <;>
          simp [restoreFocusStep, cancelPendingRestore, hsf, hfd]
      | asyncCb ut fb dv pid =>
        simp only [hcb, ← hrest]
        cases hlk : lookupAssoc s.promises pid with
        | none =>
          simp only [hlk]
          constructor <;>
            simp [restoreFocusStep, cancelPendingRestore, hsf, hfd]
        | some vs =>
          cases vs with
          | nil =>
            simp only [hlk]
            rw [close_not_mem (by simp)]
            constructor <;>
              simp [restoreFocusStep, cancelPendingRestore, hsf, hfd]
          | cons v vs' =>
            simp only [hlk]
            constructor <;>
              simp [restoreFocusStep, cancelPendingRestore, hsf, hfd]

theorem close_none_eq_close_top {s : ManagerState} {dl : Dialog}
    (h : s.dialogs.getLast? = some dl) :
    close s none = close s (some dl.id) := by
  rw [close.eq_def, close.eq_def]
  simp [h]

theorem show_empty_focus (s : ManagerState) (cur : Option Focusable)
    (o : ShowOptions) (ctag : Nat) (hs : s.dialogs = [])
    (hdes : s.destroyed = false) (hc : o.content = .factory ctag) :
    (showState s cur o).pendingRestore = false ∧
    ∀ f, cur = some f →
      (showState s cur o).focusLog = s.focusLog ++ [.blurred f.fid] ∧
      (showState s cur o).savedFocus = some f := by
  cases ho : o.id <;> cases hcur : cur <;>
    (rw [showState, showDialog] <;>
     simp [hdes, hc, ho, hs, findById, saveFocus, cancelPendingRestore, publish,
       hcur])

/-- C4: (1) a show that transitions the stack from empty blurs the currently
focused element synchronously during the call and records it as the saved
focus; (2) any show on an empty stack (in particular one racing a pending
deferred restoration) leaves no restoration pending - the save cancels it;
(3) close never appends a focus effect, so no refocus happens synchronously
inside close; (4) a close that empties a one-dialog stack with a live saved
focus schedules the deferred restoration, and only the later timer tick
performs the focus. -/
theorem focus_discipline :
    (∀ (s : ManagerState) (cur : Option Focusable) (o : ShowOptions)
        (f : Focusable) (ctag : Nat), s.dialogs = [] → s.destroyed = false →
        o.content = .factory ctag → cur = some f →
        (showState s cur o).focusLog = s.focusLog ++ [.blurred f.fid] ∧
        (showState s cur o).savedFocus = some f) ∧
    (∀ (s : ManagerState) (cur : Option Focusable) (o : ShowOptions)
        (ctag : Nat), s.dialogs = [] → s.destroyed = false →
        o.content = .factory ctag →
        (showState s cur o).pendingRestore = false) ∧
    (∀ (s : ManagerState) (t : Option DialogId),
        (close s t).1.focusLog = s.focusLog) ∧
    (∀ (s : ManagerState) (d : Dialog) (f : Focusable) (t : Option DialogId),
        s.dialogs = [d] → s.savedFocus = some f → f.isDestroyed = false →
        s.destroyed = false → (t = some d.id ∨ t = none) →
        (close s t).1.pendingRestore = true ∧
        (fireRestoreTimer (close s t).1).focusLog =
          s.focusLog ++ [.focused f.fid]) := by
  refine ⟨?_, ?_, ?_, ?_⟩
  · intro s cur o f ctag hs hdes hc hcur
    exact (show_empty_focus s cur o ctag hs hdes hc).2 f hcur
  · intro s cur o ctag hs hdes hc
    exact (show_empty_focus s cur o ctag hs hdes hc).1
  · intro s t
    exact (close_preserved_fields s.dialogs.length s t le_rfl).2.2.2.2
  · intro s d f t hs hsf hfd hdes ht
    have hts : close s t = close s (some d.id) := by
      rcases ht with rfl | rfl
      · rfl
      · exact close_none_eq_close_top (by simp [hs])
    rw [hts]
    obtain ⟨hp, hsv⟩ := close_single_pending hs hsf hfd
    refine ⟨hp, ?_⟩
    have hdd : (close s (some d.id)).1.destroyed = false := by
      rw [(close_preserved_fields s.dialogs.length s (some d.id) le_rfl).2.1]
      exact hdes
    have hfl : (close s (some d.id)).1.focusLog = s.focusLog :=
      (close_preserved_fields s.dialogs.length s (some d.id) le_rfl).2.2.2.2
    rw [fireRestore_focuses hp hsv hdd hfd, hfl]

/-- Witness for C4 on a concrete run: a show from the empty stack blurs
element 42 synchronously; closing the only dialog schedules (but does not
perform) the restoration; the timer tick performs it; a racing show cancels
the pending restoration. -/
theorem focus_discipline_witness :
    ((showState initState (some ⟨42, false⟩) c4show).focusLog =
        initState.focusLog ++ [.blurred 42] ∧
      (showState initState (some ⟨42, false⟩) c4show).savedFocus =
        some ⟨42, false⟩) ∧
    (showState initState (some ⟨43, false⟩) c4show).pendingRestore = false ∧
    (close c4open (some (.num 7))).1.focusLog = c4open.focusLog ∧
    ((close c4open (some (.num 7))).1.pendingRestore = true ∧
      (fireRestoreTimer (close c4open (some (.num 7))).1).focusLog =
        c4open.focusLog ++ [.focused 42]) :=
  ⟨focus_discipline.1 initState (some ⟨42, false⟩) c4show ⟨42, false⟩ 5
      (by decide) (by decide) (by decide) rfl,
   focus_discipline.2.1 initState (some ⟨43, false⟩) c4show 5 (by decide)
      (by decide) (by decide),
   focus_discipline.2.2.1 c4open (some (.num 7)),
   focus_discipline.2.2.2 c4open { id := .num 7, content := 5 } ⟨42, false⟩
      (some (.num 7)) (by decide) (by decide) (by decide) (by decide)
      (Or.inl rfl)⟩

/-! ### C1 and C3: the async prompt protocol -/

theorem showAsync_fields (s : ManagerState) (cur : Option Focusable)
    (base : AsyncOpts) (fb : Option DialogValue) (dv : DialogValue)
    (hdes : s.destroyed = false)
    (hfresh : DialogId.num s.idCounter ∉ s.dialogs.map (·.id)) :
    (showAsyncDialog s cur base fb dv).2 = DialogId.num s.idCounter ∧
    (showAsyncDialog s cur base fb dv).1.dialogs =
      s.dialogs ++ [asyncDialogRecord base fb dv (DialogId.num s.idCounter)] ∧
    (showAsyncDialog s cur base fb dv).1.promises =
      s.promises ++ [(DialogId.num s.idCounter, [])] := by
  rw [showAsyncDialog, showDialog]
  have hfind : findById s.dialogs (DialogId.num s.idCounter) = none :=
    findById_eq_none_of_not_mem hfresh
  by_cases hemp : s.dialogs.isEmpty <;> cases hcur : cur <;>
    simp [hdes, hfind, hemp, saveFocus, cancelPendingRestore, publish,
      dialogOfOptions, asyncDialogRecord]

theorem close_async_last (s y : ManagerState) (base : AsyncOpts)
    (fb : Option DialogValue) (dv : DialogValue) (vs : List DialogValue)
    (did : DialogId) (hfresh : did ∉ s.dialogs.map (·.id))
    (hpfresh : ∀ p ∈ s.promises, p.1 ≠ did)
    (hyd : y.dialogs = s.dialogs ++ [asyncDialogRecord base fb dv did])
    (hyp : y.promises = s.promises ++ [(did, vs)]) :
    (close y (some did)).1.dialogs = s.dialogs ∧
    (close y (some did)).1.promises =
      s.promises ++ [(did, if vs = [] then [fb.getD dv] else vs)] := by
  have hexval : extractById y.dialogs did =
      some (asyncDialogRecord base fb dv did, s.dialogs) := by
    rw [hyd]
    exact extractById_append_last (by simpa [asyncDialogRecord] using hfresh)
  rw [close.eq_def]
  dsimp only
  split
  · next hex => rw [hexval] at hex; cases hex
  next d' rest hex =>
    rw [hexval] at hex
    simp only [Option.some.injEq, Prod.mk.injEq] at hex
    obtain ⟨rfl, rfl⟩ := hex
    simp only [asyncDialogRecord]
    cases vs with
    | nil =>
      have hlk : lookupAssoc y.promises did = some ([] : List DialogValue) := by
        rw [hyp]
        exact lookupAssoc_append_fresh hpfresh
      have happ : appendRes y.promises did (fb.getD dv) =
          s.promises ++ [(did, [fb.getD dv])] := by
        rw [hyp]
        exact appendRes_append_fresh hpfresh
      simp only [hlk]
      rw [close_not_mem (by simpa using hfresh)]
      refine ⟨?_, ?_⟩
      · split <;> simp [(restoreFocusStep_fields _).1]
      · split <;> simp [(restoreFocusStep_fields _).2.2.2.1, happ]
    | cons v vs' =>
      have hlk : lookupAssoc y.promises did = some (v :: vs') := by
        rw [hyp]
        exact lookupAssoc_append_fresh hpfresh
      simp only [hlk]
      refine ⟨?_, ?_⟩
      · split <;> simp [(restoreFocusStep_fields _).1]
      · split <;> simp [(restoreFocusStep_fields _).2.2.2.1, hyp]

theorem asyncDialog_dismiss (s : ManagerState) (cur : Option Focusable)
    (base : AsyncOpts) (fb : Option DialogValue) (dv : DialogValue)
    (t : Option DialogId) (hdes : s.destroyed = false)
    (hfresh : DialogId.num s.idCounter ∉ s.dialogs.map (·.id))
    (hpfresh : ∀ p ∈ s.promises, p.1 ≠ DialogId.num s.idCounter)
    (ht : t = some (DialogId.num s.idCounter) ∨ t = none) :
    promiseResolutions (close (showAsyncDialog s cur base fb dv).1 t).1
      (DialogId.num s.idCounter) = [fb.getD dv] := by
  obtain ⟨h2, hd, hp⟩ := showAsync_fields s cur base fb dv hdes hfresh
  have hteq : close (showAsyncDialog s cur base fb dv).1 t =
      close (showAsyncDialog s cur base fb dv).1
        (some (DialogId.num s.idCounter)) := by
    rcases ht with rfl | rfl
    · rfl
    · have hlast : (showAsyncDialog s cur base fb dv).1.dialogs.getLast? =
          some (asyncDialogRecord base fb dv (DialogId.num s.idCounter)) := by
        rw [hd]
        simp
      have hcn := close_none_eq_close_top hlast
      simpa [asyncDialogRecord] using hcn
  rw [hteq]
  obtain ⟨cd, cp⟩ := close_async_last s _ base fb dv [] _ hfresh hpfresh hd hp
  rw [promiseResolutions, cp, lookupAssoc_append_fresh hpfresh]
  simp

/-- C3: an async-prompt dialog closed (by id or as topmost) without a prior
explicit resolve resolves through the onClose wrapper with
fallback ?? defaultDismissValue: a choice dialog with fallback "x" resolves
to "x"; a confirm dialog with no fallback resolves to false; a prompt or
choice dialog with no fallback resolves to undefined. -/
theorem async_dismiss_fallback (s : ManagerState) (cur : Option Focusable)
    (t : Option DialogId) (oc : ChoiceOpts) (ocf : ConfirmOpts)
    (opr : PromptOpts) (hdes : s.destroyed = false)
    (hfresh : DialogId.num s.idCounter ∉ s.dialogs.map (·.id))
    (hpfresh : ∀ p ∈ s.promises, p.1 ≠ DialogId.num s.idCounter)
    (ht : t = some (DialogId.num s.idCounter) ∨ t = none)
    (hocf : ocf.fallback = none) (hopr : opr.fallback = none) :
    (oc.fallback = some (.vStr "x") →
      promiseResolutions (close (choiceDialog s cur oc).1 t).1
        (DialogId.num s.idCounter) = [.vStr "x"]) ∧
    promiseResolutions (close (confirmDialog s cur ocf).1 t).1
      (DialogId.num s.idCounter) = [.vBool false] ∧
    promiseResolutions (close (promptDialog s cur opr).1 t).1
      (DialogId.num s.idCounter) = [.vNone] ∧
    (oc.fallback = none →
      promiseResolutions (close (choiceDialog s cur oc).1 t).1
        (DialogId.num s.idCounter) = [.vNone]) := by
  refine ⟨?_, ?_, ?_, ?_⟩
  · intro hx
    have h := asyncDialog_dismiss s cur oc.toAsyncOpts oc.fallback .vNone t
      hdes hfresh hpfresh ht
    simpa [choiceDialog, hx] using h
  · have h := asyncDialog_dismiss s cur ocf.toAsyncOpts
      (ocf.fallback.map .vBool) (.vBool false) t hdes hfresh hpfresh ht
    simpa [confirmDialog, hocf] using h
  · have h := asyncDialog_dismiss s cur opr.toAsyncOpts opr.fallback .vNone t
      hdes hfresh hpfresh ht
    simpa [promptDialog, hopr] using h
  · intro hx
    have h := asyncDialog_dismiss s cur oc.toAsyncOpts oc.fallback .vNone t
      hdes hfresh hpfresh ht
    simpa [choiceDialog, hx] using h

/-- Witness for C3 on the fresh manager: each helper's dialog is closed by id
without prior resolve and the promise resolves to the documented fallback. -/
theorem async_dismiss_fallback_witness :
    promiseResolutions
      (close (choiceDialog initState none
        { contentTag := 9, fallback := some (.vStr "x") }).1
        (some (.num 1))).1 (.num 1) = [.vStr "x"] ∧
    promiseResolutions
      (close (confirmDialog initState none { contentTag := 7 }).1
        (some (.num 1))).1 (.num 1) = [.vBool false] ∧
    promiseResolutions
      (close (promptDialog initState none { contentTag := 8 }).1
        (some (.num 1))).1 (.num 1) = [.vNone] ∧
    promiseResolutions
      (close (choiceDialog initState none { contentTag := 9 }).1
        (some (.num 1))).1 (.num 1) = [.vNone] :=
  have h := async_dismiss_fallback initState none (some (.num 1))
    { contentTag := 9, fallback := some (.vStr "x") } { contentTag := 7 }
    { contentTag := 8 } (by decide) (by decide) (by decide) (Or.inl rfl)
    (by decide) (by decide)
  ⟨h.1 rfl, h.2.1, h.2.2.1,
   (async_dismiss_fallback initState none (some (.num 1))
      { contentTag := 9 } { contentTag := 7 } { contentTag := 8 } (by decide)
      (by decide) (by decide) (Or.inl rfl) (by decide) (by decide)).2.2.2 rfl⟩

/-- C1: for a confirm dialog, resolving true from content resolves the
promise exactly once with true (the resolution list is exactly [true]); a
subsequent Manager.close on the same id is a complete no-op (the record was
already removed when safe-resolve closed it, so not even its onClose can fire
again), and any further completion attempt through the safe-resolve closure
leaves the state - in particular the resolved value - unchanged. -/
theorem confirm_single_resolution (s : ManagerState) (cur : Option Focusable)
    (o : ConfirmOpts) (hdes : s.destroyed = false)
    (hfresh : DialogId.num s.idCounter ∉ s.dialogs.map (·.id))
    (hpfresh : ∀ p ∈ s.promises, p.1 ≠ DialogId.num s.idCounter) :
    (confirmDialog s cur o).2 = DialogId.num s.idCounter ∧
    promiseResolutions
      (safeResolve (confirmDialog s cur o).1 (DialogId.num s.idCounter)
        (.vBool true))
      (DialogId.num s.idCounter) = [.vBool true] ∧
    close
      (safeResolve (confirmDialog s cur o).1 (DialogId.num s.idCounter)
        (.vBool true))
      (some (DialogId.num s.idCounter)) =
      (safeResolve (confirmDialog s cur o).1 (DialogId.num s.idCounter)
        (.vBool true), none) ∧
    ∀ v, safeResolve
        (safeResolve (confirmDialog s cur o).1 (DialogId.num s.idCounter)
          (.vBool true))
        (DialogId.num s.idCounter) v =
      safeResolve (confirmDialog s cur o).1 (DialogId.num s.idCounter)
        (.vBool true) := by
  simp only [confirmDialog]
  obtain ⟨h2, hd, hp⟩ := showAsync_fields s cur o.toAsyncOpts
    (o.fallback.map .vBool) (.vBool false) hdes hfresh
  have hlk0 : lookupAssoc
      (showAsyncDialog s cur o.toAsyncOpts (o.fallback.map .vBool)
        (.vBool false)).1.promises (DialogId.num s.idCounter) = some [] := by
    rw [hp]
    exact lookupAssoc_append_fresh hpfresh
  have hsr : safeResolve
      (showAsyncDialog s cur o.toAsyncOpts (o.fallback.map .vBool)
        (.vBool false)).1 (DialogId.num s.idCounter) (.vBool true) =
      (close
        { (showAsyncDialog s cur o.toAsyncOpts (o.fallback.map .vBool)
            (.vBool false)).1 with
          promises := appendRes
            (showAsyncDialog s cur o.toAsyncOpts (o.fallback.map .vBool)
              (.vBool false)).1.promises (DialogId.num s.idCounter)
            (.vBool true) }
        (some (DialogId.num s.idCounter))).1 := by
    rw [safeResolve, hlk0]
  have happ : appendRes
      (showAsyncDialog s cur o.toAsyncOpts (o.fallback.map .vBool)
        (.vBool false)).1.promises (DialogId.num s.idCounter) (.vBool true) =
      s.promises ++ [(DialogId.num s.idCounter, [.vBool true])] := by
    rw [hp]
    exact appendRes_append_fresh hpfresh
  obtain ⟨cd, cp⟩ := close_async_last s
    { (showAsyncDialog s cur o.toAsyncOpts (o.fallback.map .vBool)
        (.vBool false)).1 with
      promises := appendRes
        (showAsyncDialog s cur o.toAsyncOpts (o.fallback.map .vBool)
          (.vBool false)).1.promises (DialogId.num s.idCounter)
        (.vBool true) }
    o.toAsyncOpts (o.fallback.map .vBool) (.vBool false) [.vBool true]
    (DialogId.num s.idCounter) hfresh hpfresh (by simpa using hd)
    (by simpa using happ)
  refine ⟨h2, ?_, ?_, ?_⟩
  · rw [hsr, promiseResolutions, cp, lookupAssoc_append_fresh hpfresh]
    simp
  · rw [hsr]
    exact close_not_mem (by rw [cd]; exact hfresh)
  · intro v
    have hzlk : lookupAssoc
        (safeResolve
          (showAsyncDialog s cur o.toAsyncOpts (o.fallback.map .vBool)
            (.vBool false)).1 (DialogId.num s.idCounter) (.vBool true)).promises
        (DialogId.num s.idCounter) = some [.vBool true] := by
      rw [hsr, cp]
      simp [lookupAssoc_append_fresh hpfresh]
    rw [safeResolve, hzlk]

/-- Witness for C1 on the fresh manager: confirm, resolve true, then close;
the promise value is exactly [true] and both later completion attempts are
no-ops. -/
theorem confirm_single_resolution_witness :
    (confirmDialog initState none { contentTag := 7 }).2 = .num 1 ∧
    promiseResolutions
      (safeResolve (confirmDialog initState none { contentTag := 7 }).1
        (.num 1) (.vBool true)) (.num 1) = [.vBool true] ∧
    close
      (safeResolve (confirmDialog initState none { contentTag := 7 }).1
        (.num 1) (.vBool true)) (some (.num 1)) =
      (safeResolve (confirmDialog initState none { contentTag := 7 }).1
        (.num 1) (.vBool true), none) ∧
    ∀ v, safeResolve
        (safeResolve (confirmDialog initState none { contentTag := 7 }).1
          (.num 1) (.vBool true)) (.num 1) v =
      safeResolve (confirmDialog initState none { contentTag := 7 }).1
        (.num 1) (.vBool true) :=
  confirm_single_resolution initState none { contentTag := 7 } (by decide)
    (by decide) (by decide)

/-! ### C5 and C6: container input routing -/

theorem close_present {s : ManagerState} {i : DialogId} {dm : Dialog}
    {rest : List Dialog} (hex : extractById s.dialogs i = some (dm, rest))
    (hpid : ∀ ut fb dv pid, dm.onClose = some (.asyncCb ut fb dv pid) →
      pid ∉ rest.map (·.id)) :
    (close s (some i)).1.dialogs = rest ∧
    (close s (some i)).1.published = s.published ++ [.closeEv i] := by
  rw [close.eq_def]
  dsimp only
  split
  · next hx => rw [hex] at hx; cases hx
  next d' rest' hx =>
    rw [hex] at hx
    simp only [Option.some.injEq, Prod.mk.injEq] at hx
    obtain ⟨rfl, rfl⟩ := hx
    rcases hcb : dm.onClose with - | cb
    · simp only [hcb]
      refine ⟨?_, ?_⟩
      · split <;> simp [(restoreFocusStep_fields _).1]
      · split <;> simp [(restoreFocusStep_fields _).2.2.1]
    · cases cb with
      | user tag =>
        simp only [hcb]
        refine ⟨?_, ?_⟩
        · split <;> simp [(restoreFocusStep_fields _).1]
        · split <;> simp [(restoreFocusStep_fields _).2.2.1]
      | asyncCb ut fb dv pid =>
        simp only [hcb]
        cases hlk : lookupAssoc s.promises pid with
        | none =>
          simp only [hlk]
          refine ⟨?_, ?_⟩
          · split <;> simp [(restoreFocusStep_fields _).1]
          · split <;> simp [(restoreFocusStep_fields _).2.2.1]
        | some vs =>
          cases vs with
          | nil =>
            simp only [hlk]
            rw [close_not_mem (by simpa using hpid ut fb dv pid hcb)]
            refine ⟨?_, ?_⟩
            · split <;> simp [(restoreFocusStep_fields _).1]
            · split <;> simp [(restoreFocusStep_fields _).2.2.1]
          | cons v vs' =>
            simp only [hlk]
            refine ⟨?_, ?_⟩
            · split <;> simp [(restoreFocusStep_fields _).1]
            · split <;> simp [(restoreFocusStep_fields _).2.2.1]

theorem sysClose_present (sys : DialogSystem) {i : DialogId} {dm : Dialog}
    {rest : List Dialog}
    (hex : extractById sys.mgr.dialogs i = some (dm, rest))
    (hpid : ∀ ut fb dv pid, dm.onClose = some (.asyncCb ut fb dv pid) →
      pid ∉ rest.map (·.id))
    (hcd : sys.cont.cdestroyed = false) :
    (sysClose sys (some i)).mgr.dialogs = rest ∧
    (sysClose sys (some i)).cont.entries = removeEntry sys.cont.entries i ∧
    (sysClose sys (some i)).clickLog = sys.clickLog := by
  obtain ⟨hd, hp⟩ := close_present hex hpid
  rw [sysClose]
  have hdrop : (close sys.mgr (some i)).1.published.drop
      sys.mgr.published.length = [.closeEv i] := by
    rw [hp]
    simpa using List.drop_left sys.mgr.published [.closeEv i]
  rw [hdrop]
  refine ⟨hd, ?_, rfl⟩
  simp [containerOnEvent, hcd]

/-- C6: on an ESC keypress with a non-empty container, the effective
closeOnEscape is the topmost record's override, else the container default
(and closing proceeds whenever that chain does not yield false, so the
default is true); when it is false the event is left unhandled and the state
untouched, otherwise the event is consumed (the handler returns true after
preventDefault) and exactly the topmost dialog is closed through
Manager.close(topmostId). -/
theorem escape_effective_closeOnEscape (sys : DialogSystem) (i : DialogId)
    (d dm : Dialog) (rest : List Dialog)
    (htop : topEntry sys.cont = some (i, d))
    (hex : extractById sys.mgr.dialogs i = some (dm, rest))
    (hpid : ∀ ut fb dv pid, dm.onClose = some (.asyncCb ut fb dv pid) →
      pid ∉ rest.map (·.id))
    (hcd : sys.cont.cdestroyed = false) :
    ((d.closeOnEscape <|> sys.cont.copts.closeOnEscape) = some false →
      handleKeyboard sys "escape" = (sys, false)) ∧
    ((d.closeOnEscape <|> sys.cont.copts.closeOnEscape) ≠ some false →
      handleKeyboard sys "escape" = (sysClose sys (some i), true) ∧
      (handleKeyboard sys "escape").1.mgr.dialogs = rest ∧
      (handleKeyboard sys "escape").1.cont.entries =
        removeEntry sys.cont.entries i) := by
  have hne : sys.cont.entries ≠ [] := by
    intro hnil
    rw [topEntry, hnil] at htop
    cases htop
  have hlen : 0 < sys.cont.entries.length := by
    cases he : sys.cont.entries with
    | nil => exact absurd he hne
    | cons a as => simp [he]
  constructor
  · intro heff
    rw [handleKeyboard]
    simp only [htop, heff]
    simp [hlen]
  · intro heff
    have hrun : handleKeyboard sys "escape" = (sysClose sys (some i), true) := by
      rw [handleKeyboard]
      simp only [htop]
      simp [hlen, heff]
    obtain ⟨h1, h2, _⟩ := sysClose_present sys hex hpid hcd
    exact ⟨hrun, by rw [hrun]; exact h1, by rw [hrun]; exact h2⟩

/-- Witness for C6: with no overrides ESC closes the single dialog and is
consumed; with a per-dialog closeOnEscape false the event is left unhandled
and nothing changes. -/
theorem escape_effective_closeOnEscape_witness :
    (handleKeyboard c56sys "escape" = (sysClose c56sys (some (.num 1)), true) ∧
      (handleKeyboard c56sys "escape").1.mgr.dialogs = [] ∧
      (handleKeyboard c56sys "escape").1.cont.entries =
        removeEntry c56sys.cont.entries (.num 1)) ∧
    handleKeyboard c56sysC "escape" = (c56sysC, false) :=
  ⟨(escape_effective_closeOnEscape c56sys (.num 1) c56dialog c56dialog []
      (by decide) (by decide)
      (by intro ut fb dv pid h; simp [c56dialog] at h) (by decide)).2
      (by decide),
   (escape_effective_closeOnEscape c56sysC (.num 3) c56dialogC c56dialogC []
      (by decide) (by decide)
      (by intro ut fb dv pid h; simp [c56dialogC] at h) (by decide)).1
      (by decide)⟩

/-- C5: a backdrop click with a non-empty container always invokes the
topmost record's onBackdropClick callback, and closes the dialog exactly when
the effective closeOnClickOutside - the record's override, else the container
default, else false - is true. -/
theorem backdrop_click_routing (sys : DialogSystem) (i : DialogId)
    (d dm : Dialog) (rest : List Dialog)
    (htop : topEntry sys.cont = some (i, d))
    (hex : extractById sys.mgr.dialogs i = some (dm, rest))
    (hpid : ∀ ut fb dv pid, dm.onClose = some (.asyncCb ut fb dv pid) →
      pid ∉ rest.map (·.id))
    (hcd : sys.cont.cdestroyed = false) :
    ((d.closeOnClickOutside <|> sys.cont.copts.closeOnClickOutside) = some true →
      (handleBackdropClick sys).clickLog =
        sys.clickLog ++ d.onBackdropClick.toList ∧
      (handleBackdropClick sys).mgr.dialogs = rest ∧
      (handleBackdropClick sys).cont.entries =
        removeEntry sys.cont.entries i) ∧
    ((d.closeOnClickOutside <|> sys.cont.copts.closeOnClickOutside) ≠ some true →
      handleBackdropClick sys =
        { sys with clickLog := sys.clickLog ++ d.onBackdropClick.toList }) := by
  constructor
  · intro heff
    have hrun : handleBackdropClick sys =
        sysClose { sys with clickLog := sys.clickLog ++ d.onBackdropClick.toList }
          (some i) := by
      rw [handleBackdropClick]
      simp only [htop]
      simp [heff]
    obtain ⟨h1, h2, h3⟩ := sysClose_present
      { sys with clickLog := sys.clickLog ++ d.onBackdropClick.toList }
      hex hpid hcd
    refine ⟨?_, ?_, ?_⟩
    · rw [hrun, h3]
    · rw [hrun]; exact h1
    · rw [hrun]; exact h2
  · intro heff
    rw [handleBackdropClick]
    simp only [htop]
    simp [heff]

/-- Witness for C5: a click with closeOnClickOutside unset fires callback 77
and closes nothing; with the per-dialog override true it fires callback 88
and closes the dialog. -/
theorem backdrop_click_routing_witness :
    handleBackdropClick c56sys =
      { c56sys with clickLog := c56sys.clickLog ++ [77] } ∧
    ((handleBackdropClick c56sysB).clickLog = c56sysB.clickLog ++ [88] ∧
      (handleBackdropClick c56sysB).mgr.dialogs = [] ∧
      (handleBackdropClick c56sysB).cont.entries =
        removeEntry c56sysB.cont.entries (.num 2)) :=
  ⟨(backdrop_click_routing c56sys (.num 1) c56dialog c56dialog []
      (by decide) (by decide)
      (by intro ut fb dv pid h; simp [c56dialog] at h) (by decide)).2
      (by decide),
   (backdrop_click_routing c56sysB (.num 2) c56dialogB c56dialogB []
      (by decide) (by decide)
      (by intro ut fb dv pid h; simp [c56dialogB] at h) (by decide)).1
      (by decide)⟩

/-! ### C9: auto-generated ids come from a strictly increasing counter -/

theorem saveFocus_idCounter (s : ManagerState) (cur : Option Focusable) :
    (saveFocus s cur).idCounter = s.idCounter := by
  cases cur <;> simp [saveFocus, cancelPendingRestore]

theorem showState_idCounter (s : ManagerState) (cur : Option Focusable)
    (o : ShowOptions) :
    (showState s cur o).idCounter =
      if !s.destroyed && contentOk o.content && o.id.isNone
      then s.idCounter + 1 else s.idCounter := by
  rw [showState, showDialog]
  by_cases hdes : s.destroyed
  · simp [hdes]
  cases hc : o.content
  · simp [hdes, contentOk]
  · simp [hdes, contentOk]
  cases ho : o.id
  · cases hfind : findById s.dialogs (.num s.idCounter) <;>
      by_cases hemp : s.dialogs.isEmpty <;> cases hcur : cur <;>
        simp [hdes, hc, ho, hfind, hemp, contentOk, publish, saveFocus,
          cancelPendingRestore]
  · next i =>
    cases hfind : findById s.dialogs i <;>
      by_cases hemp : s.dialogs.isEmpty <;> cases hcur : cur <;>
        simp [hdes, hc, ho, hfind, hemp, contentOk, publish, saveFocus,
          cancelPendingRestore]

theorem closeMany_idCounter : ∀ (ids : List DialogId) (s : ManagerState),
    (closeMany s ids).idCounter = s.idCounter := by
  intro ids
  induction ids with
  | nil => intro s; rfl
  | cons i rest ih =>
    intro s
    have : closeMany s (i :: rest) = closeMany (close s (some i)).1 rest := rfl
    rw [this, ih]
    exact (close_preserved_fields s.dialogs.length s (some i) le_rfl).1

theorem closeMany_destroyed : ∀ (ids : List DialogId) (s : ManagerState),
    (closeMany s ids).destroyed = s.destroyed := by
  intro ids
  induction ids with
  | nil => intro s; rfl
  | cons i rest ih =>
    intro s
    have : closeMany s (i :: rest) = closeMany (close s (some i)).1 rest := rfl
    rw [this, ih]
    exact (close_preserved_fields s.dialogs.length s (some i) le_rfl).2.1

theorem showAsync_idCounter (s : ManagerState) (cur : Option Focusable)
    (base : AsyncOpts) (fb : Option DialogValue) (dv : DialogValue) :
    (showAsyncDialog s cur base fb dv).1.idCounter = s.idCounter + 1 := by
  rw [showAsyncDialog, showDialog]
  by_cases hdes : s.destroyed
  · simp [hdes]
  · cases hfind : findById s.dialogs (.num s.idCounter) <;>
      by_cases hemp : s.dialogs.isEmpty <;> cases hcur : cur <;>
        simp [hdes, hfind, hemp, publish, saveFocus, cancelPendingRestore]

theorem safeResolve_idCounter (s : ManagerState) (did : DialogId)
    (v : DialogValue) : (safeResolve s did v).idCounter = s.idCounter := by
  rw [safeResolve]
  cases hlk : lookupAssoc s.promises did with
  | none => rfl
  | some vs =>
    cases vs with
    | nil =>
      exact (close_preserved_fields s.dialogs.length _ (some did)
        (by simp)).1
    | cons v' vs' => rfl

theorem updateDialog_idCounter (s : ManagerState) (i : DialogId)
    (u : UpdateOpts) : (updateDialog s i u).1.idCounter = s.idCounter := by
  rw [updateDialog]
  cases hf : findById s.dialogs i <;> simp [publish]

theorem openContext_step_idCounter (s : ManagerState) (cur : Option Focusable)
    (name : String) (o : UpdateOpts) :
    (stepOp s (.opOpenContext cur name o)).idCounter =
      if (lookupCtx s.contextDialogs name).isSome && !s.destroyed
      then s.idCounter + 1 else s.idCounter := by
  show (match openContextDialog s cur name o with
        | .ok (s', _) => s'
        | .error _ => s).idCounter = _
  rw [openContextDialog]
  cases hlk : lookupCtx s.contextDialogs name with
  | none => simp [hlk]
  | some ftag =>
    by_cases hdes : s.destroyed
    · simp [hlk, hdes, showDialog]
    · cases hfind : findById s.dialogs (.num s.idCounter) <;>
        by_cases hemp : s.dialogs.isEmpty <;> cases hcur : cur <;>
          simp [hlk, hdes, showDialog, hfind, hemp, publish, saveFocus,
            cancelPendingRestore]

theorem stepOp_idCounter (s : ManagerState) (op : MgrOp) :
    (stepOp s op).idCounter =
      if autoGenCond s op then s.idCounter + 1 else s.idCounter := by
  cases op with
  | opShow cur o => simpa [stepOp, autoGenCond] using showState_idCounter s cur o
  | opClose t =>
    simp only [stepOp, autoGenCond, if_false, Bool.false_eq_true]
    exact (close_preserved_fields s.dialogs.length s t le_rfl).1
  | opCloseAll =>
    simp only [stepOp, autoGenCond, if_false, Bool.false_eq_true]
    exact closeMany_idCounter _ s
  | opReplace cur o =>
    have h1 : (closeAll s).idCounter = s.idCounter := closeMany_idCounter _ s
    have h2 : (closeAll s).destroyed = s.destroyed := closeMany_destroyed _ s
    simp only [stepOp, autoGenCond, replaceOp]
    rw [showState_idCounter, h1, h2]
  | opUpdate i u =>
    simp only [stepOp, autoGenCond, if_false, Bool.false_eq_true]
    exact updateDialog_idCounter s i u
  | opRegister name ftag =>
    simp [stepOp, autoGenCond, registerContextDialog]
  | opOpenContext cur name o =>
    simpa [autoGenCond] using openContext_step_idCounter s cur name o
  | opPrompt cur o =>
    simp only [stepOp, autoGenCond, if_true]
    exact showAsync_idCounter s cur _ _ _
  | opConfirm cur o =>
    simp only [stepOp, autoGenCond, if_true]
    exact showAsync_idCounter s cur _ _ _
  | opAlert cur o =>
    simp only [stepOp, autoGenCond, if_true]
    exact showAsync_idCounter s cur _ _ _
  | opChoice cur o =>
    simp only [stepOp, autoGenCond, if_true]
    exact showAsync_idCounter s cur _ _ _
  | opResolve did v =>
    simp only [stepOp, autoGenCond, if_false, Bool.false_eq_true]
    exact safeResolve_idCounter s did v
  | opFireRestore =>
    simp only [stepOp, autoGenCond, if_false, Bool.false_eq_true]
    rw [fireRestoreTimer]
    split
    · cases hs : s.savedFocus <;> simp [hs] <;> split <;> rfl
    · rfl
  | opDestroy =>
    simp only [stepOp, autoGenCond, if_false, Bool.false_eq_true]
    rw [destroy]
    split <;> rfl

theorem runAuto_lower_bound : ∀ (ops : List MgrOp) (s : ManagerState)
    (n : Nat), n ∈ runAuto s ops → s.idCounter ≤ n := by
  intro ops
  induction ops with
  | nil => intro s n h; simp [runAuto] at h
  | cons op ops ih =>
    intro s n h
    rw [runAuto] at h
    rcases List.mem_append.mp h with h1 | h1
    · rw [autoGenIds] at h1
      by_cases hc : autoGenCond s op
      · simp [hc] at h1
        omega
      · simp [hc] at h1
    · have hb := ih (stepOp s op) n h1
      have hstep := stepOp_idCounter s op
      by_cases hc : autoGenCond s op <;> simp [hc] at hstep <;> omega

/-- C9: along any run of manager operations, the auto-generated ids (from
show without a caller id, openContextDialog, and the async-prompt helpers)
form a strictly increasing sequence of counter values, hence are pairwise
distinct - an auto-generated id is never reused, even after its dialog
closes. -/
theorem auto_ids_strictly_increasing (s : ManagerState) (ops : List MgrOp) :
    (runAuto s ops).Chain' (· < ·) ∧ (runAuto s ops).Nodup := by
  have hchain : ∀ (ops : List MgrOp) (s : ManagerState),
      (runAuto s ops).Chain' (· < ·) := by
    intro ops
    induction ops with
    | nil => intro s; simp [runAuto]
    | cons op ops ih =>
      intro s
      rw [runAuto, autoGenIds]
      by_cases hc : autoGenCond s op
      · simp only [hc, if_true, List.singleton_append]
        refine List.Chain'.cons' (ih _) ?_
        intro y hy
        have hmem : y ∈ runAuto (stepOp s op) ops := List.mem_of_mem_head? hy
        have hb := runAuto_lower_bound ops (stepOp s op) y hmem
        have hstep := stepOp_idCounter s op
        rw [if_pos hc] at hstep
        omega
      · simp only [hc, if_false, List.nil_append]
        exact ih _
  refine ⟨hchain ops s, ?_⟩
  have hp : (runAuto s ops).Pairwise (· < ·) :=
    List.chain'_iff_pairwise.mp (hchain ops s)
  exact hp.imp (fun h => Nat.ne_of_lt h)
